import Mathlib

/-!
Verification of the mox mail server core against its specification.

This file gives a shallow embedding of:
  * the inbound SMTP analyzer (`smtpserver/analyze.go`, function `analyze`),
  * the control-socket data-stream framing (`ctl.go`: `ctlwriter.Write`,
    `ctlreader.Read`, `servectl`),
  * the MTA-STS policy fetch and matching (`mtasts/mtasts.go`:
    `FetchPolicy`, `Policy.Matches`),
and proves the specification claims about them.

External calls made by the embedded code (DNS, database, junk filter,
report parsers, random jitter) are modelled as oracle inputs carried in an
environment record, so every embedded function is a pure, executable Lean
function over explicit inputs.  Go float64 arithmetic on classifier
probabilities and thresholds is modelled with rationals.
-/

namespace Mox

/-- `dns.Domain`: a domain in ASCII and (optionally) unicode form. -/
structure Domain where
  ascii : String
  unicode : String
deriving DecidableEq, Repr

/-- `dns.Domain.IsZero`: the zero value (no domain configured). -/
def Domain.IsZero (d : Domain) : Bool := d = ⟨"", ""⟩

/-- `dns.Domain.Name`: unicode name when present, ASCII otherwise. -/
def Domain.Name (d : Domain) : String :=
  if d.unicode = "" then d.ascii else d.unicode

/-- `dkim.Status` of a DKIM signature verification. -/
inductive DKIMStatus
  | pass | fail | temperror | permerror | neutral | policy | absent
deriving DecidableEq, Repr

/-- One entry of `d.dkimResults` (`dkim.Result`), restricted to the fields
the analyzer reads: the status, the signature domain (`r.Sig.Domain`), the
`l=` length tag (`r.Sig.Length`, negative when unset) and the result of
`r.Record.ServiceAllowed("tlsrpt")`. -/
structure DKIMResult where
  status : DKIMStatus
  sigDomain : Domain
  sigLength : Int
  recordTlsrptAllowed : Bool
deriving DecidableEq, Repr

/-- `dmarc.Status` of the DMARC evaluation. -/
inductive DMARCStatus
  | absent | pass | fail | temperror | permerror
deriving DecidableEq, Repr

/-- `iprev.Status` of the reverse-DNS check. -/
inductive IPrevStatus
  | pass | fail | temperror | permerror
deriving DecidableEq, Repr

/-- `store.Validation`, the SPF-derived validation enum stored on the
message (`d.m.MailFromValidation`). -/
inductive Validation
  | strict | dmarc | relaxed | pass | neutral | temperror | permerror
  | fail | softfail | unknown | absent
deriving DecidableEq, Repr

/-- Modelled from the spec: the reputation method keys of the Reputation
Engine (§4.2; the `reputationMethod` constants live in `reputation.go`,
which is outside the provided sources, but `analyze` matches on them). -/
inductive ReputationMethod
  | msgfromFull | msgfromDomain | msgfromOrg | dkimspf | ip1 | ip2 | ip3 | rnone
deriving DecidableEq, Repr

/-- The string value of a `reputationMethod` constant (spec §4.2 table). -/
def ReputationMethod.toStr : ReputationMethod → String
  | .msgfromFull => "msgfrom-full"
  | .msgfromDomain => "msgfrom-domain"
  | .msgfromOrg => "msgfrom-org"
  | .dkimspf => "dkim-spf"
  | .ip1 => "ip1"
  | .ip2 => "ip2"
  | .ip3 => "ip3"
  | .rnone => "none"

/-- `config.Ruleset` as returned by `store.MessageRuleset`, restricted to
the fields the analyzer reads. -/
structure Ruleset where
  listAllowDNSDomain : Domain
  mailbox : String
deriving DecidableEq, Repr

/-- A parsed DMARC aggregate report (`dmarcrpt.Feedback`), restricted to
the fields the analyzer reads: `report.PolicyPublished.Domain` and
`report.ReportMetadata.DateRange.End`. -/
structure DmarcFeedback where
  policyPublishedDomain : String
  dateRangeEnd : Int
deriving DecidableEq, Repr

/-- One policy of a TLS report: the analyzer reads `p.Policy.Domain`. -/
structure TLSRptPolicy where
  policyDomain : String
deriving DecidableEq, Repr

/-- A parsed TLS report (`tlsrpt.Report`), restricted to the fields the
analyzer reads. -/
structure TLSReport where
  policies : List TLSRptPolicy
deriving DecidableEq, Repr

/-- Outcome of `d.acc.OpenJunkFilter`: either the filter opened (with its
configured `jf.Threshold` and the result of `ClassifyMessageReader`), or
`store.ErrNoJunkFilter`, or another open error. -/
inductive JunkFilterOutcome
  | opened (threshold : ℚ) (classify : Except String ℚ)
  | noJunkFilter
  | openError (e : String)

/-- The `delivery` struct fields the analyzer reads. -/
structure Delivery where
  mailFromValidated : Bool
  mailFromDomain : String
  mailFromValidation : Validation
  dkimResults : List DKIMResult
  dmarcUse : Bool
  dmarcReject : Bool
  dmarcStatus : DMARCStatus
  iprevStatus : IPrevStatus
  destDMARCReports : Bool
  destTLSReports : Bool
  destMailbox : String
  msgFromDomain : Domain
  dnsBLs : List Domain

/-- The external-call oracle for one run of `analyze`: each field is the
result the corresponding external call would return for this delivery. -/
structure Env where
  /-- `store.MessageRuleset` result. -/
  rs : Option Ruleset
  /-- `dmarcrpt.ParseMessageReport` result on this message. -/
  dmarcParse : Except String DmarcFeedback
  /-- `tlsrpt.ParseMessage` result on this message. -/
  tlsParse : Except String TLSReport
  /-- `dns.ParseDomain` on report domain strings. -/
  parseDomain : String → Except String Domain
  /-- `mox.Conf.Domain` lookup: is the domain locally configured. -/
  confDomain : Domain → Bool
  /-- `time.Now().Unix()`. -/
  nowUnix : Int
  /-- `d.acc.MailboxFind` inside the read transaction (error aborts it). -/
  mailboxFind : Except String Unit
  /-- `reputation(tx, log, d.m)`: `(isjunk, conclusive, method)` or error. -/
  reputation : Except String (Option Bool × Bool × ReputationMethod)
  /-- `conf.SubjectPass.Period > 0`. -/
  subjectPassPeriodPos : Bool
  /-- `d.acc.Subjectpass(canonicalAddress)`: the key, or an error. -/
  subjectpassKey : Except String String
  /-- `subjectpass.Verify` succeeded (`err == nil`). -/
  subjectpassVerify : Bool
  /-- `d.acc.OpenJunkFilter` outcome. -/
  junkFilter : JunkFilterOutcome
  /-- `checkDNSBLHealth` per zone. -/
  dnsblHealthy : Domain → Bool
  /-- `dnsbl.Lookup` returned `dnsbl.StatusFail` for the remote IP. -/
  dnsblListed : Domain → Bool
  /-- `jitterRand.Float64()`, a value in `[0, 1)`. -/
  jitterRaw : ℚ
  /-- `subjectpass.Generate(d.msgFrom, key, time.Now())`. -/
  subjectpassToken : String

/-- The `analysis` struct returned by `analyze`.  Fields omitted in a Go
composite literal take their zero value, mirrored by the defaults. -/
structure Analysis where
  accept : Bool := false
  code : Nat := 0
  secode : String := ""
  userError : Bool := false
  errmsg : String := ""
  err : Option String := none
  dmarcReport : Option DmarcFeedback := none
  tlsReport : Option TLSReport := none
  reason : String := ""
deriving DecidableEq, Repr

-- SMTP status codes and enhanced codes used by the analyzer
-- (constants of the smtp package; values as stated by the spec §6).
def C550MailboxUnavail : Nat := 550
def C451LocalErr : Nat := 451
def SePol7MultiAuthFails26 : String := "5.7.26"
def SeSys3Other0 : String := "5.3.0"
def SePol7DeliveryUnauth1 : String := "5.7.1"

-- Reason constants of analyze.go.
def reasonListAllow : String := "list-allow"
def reasonDMARCPolicy : String := "dmarc-policy"
def reasonReputationError : String := "reputation-error"
def reasonReporting : String := "reporting"
def reasonSPFPolicy : String := "spf-policy"
def reasonJunkClassifyError : String := "junk-classify-error"
def reasonJunkFilterError : String := "junk-filter-error"
def reasonGiveSubjectpass : String := "give-subjectpass"
def reasonNoBadSignals : String := "no-bad-signals"
def reasonJunkContent : String := "junk-content"
def reasonJunkContentStrict : String := "junk-content-strict"
def reasonDNSBlocklisted : String := "dns-blocklisted"
def reasonSubjectpass : String := "subjectpass"
def reasonSubjectpassError : String := "subjectpass-error"
def reasonIPrev : String := "iprev"

/-- Modelled from the spec: `subjectpass.Explanation`, the fixed
explanation prefix placed before a generated token in the reject line
(package subjectpass is outside the provided sources; only its role as a
fixed prefix matters here). -/
def subjectpassExplanation : String :=
  "message needs a token in the subject to pass, add: "

/-- The local `reject` closure of `analyze`: a non-accept analysis whose
`userError` is set exactly when the internal error is nil. -/
def reject (code : Nat) (secode errmsg : String) (err : Option String)
    (reason : String) : Analysis :=
  { accept := false, code := code, secode := secode,
    userError := err.isNone, errmsg := errmsg, err := err,
    dmarcReport := none, tlsReport := none, reason := reason }

/-- The mailing-list allowance condition (analyze.go lines 77-89): the
destination ruleset names a list domain and either the validated MAIL FROM
domain equals it, or some DKIM pass signature is from it. -/
def listAllowed (d : Delivery) (env : Env) : Bool :=
  match env.rs with
  | some rs =>
    if rs.listAllowDNSDomain.IsZero then false
    else
      let ld := rs.listAllowDNSDomain
      (d.mailFromValidated && decide (ld.Name = d.mailFromDomain)) ||
        d.dkimResults.any fun r =>
          decide (r.status = .pass) && decide (r.sigDomain = ld)
  | none => false

/-- DMARC aggregate report extraction (analyze.go lines 96-114): requires
the destination to be a DMARC-reports destination, a DMARC pass, a parsed
report, a parseable and locally configured policy-published domain, and a
date-range end no more than 60 seconds in the future. -/
def extractedDmarcReport (d : Delivery) (env : Env) : Option DmarcFeedback :=
  if d.destDMARCReports then
    if d.dmarcStatus ≠ .pass then none
    else match env.dmarcParse with
      | .error _ => none
      | .ok report =>
        match env.parseDomain report.policyPublishedDomain with
        | .error _ => none
        | .ok dom =>
          if ¬ env.confDomain dom then none
          else if report.dateRangeEnd > env.nowUnix + 60 then none
          else some report
  else none

/-- TLS report extraction (analyze.go lines 118-154): requires the
destination to be a TLS-reports destination, a DKIM pass over the
From-domain with `l=` unset allowing service "tlsrpt", a parsed report,
and at least one locally configured policy domain in the report. -/
def extractedTlsReport (d : Delivery) (env : Env) : Option TLSReport :=
  if d.destTLSReports then
    let ok := d.dkimResults.any fun r =>
      decide (r.status = .pass) && decide (r.sigDomain = d.msgFromDomain) &&
        decide (r.sigLength < 0) && r.recordTlsrptAllowed
    if ¬ ok then none
    else match env.tlsParse with
      | .error _ => none
      | .ok report =>
        let known := report.policies.any fun p =>
          match env.parseDomain p.policyDomain with
          | .error _ => false
          | .ok dom => env.confDomain dom
        if known then some report else none
  else none

/-- The reputation lookup inside the account read transaction (analyze.go
lines 163-198): `MailboxFind` first (an error aborts the transaction),
then `reputation`. -/
def repLookup (env : Env) :
    Except String (Option Bool × Bool × ReputationMethod) :=
  match env.mailboxFind with
  | .error e => .error ("finding destination mailbox: " ++ e)
  | .ok _ => env.reputation

/-- The method sets of the two switches at analyze.go lines 215-228: the
reputation was DKIM/SPF- or IP-based or absent. -/
def methodNoHistory : ReputationMethod → Bool
  | .dkimspf | .ip1 | .ip2 | .ip3 | .rnone => true
  | _ => false

/-- Content classification (analyze.go lines 254-289).  Returns either an
early rejection or `(accept, junkSubjectpass, reason)` before the DNSBL
step: with an opened junk filter the threshold is the filter threshold
plus jitter `(jitterRaw - 0.5)/10`, capped at `0.25` on a suspicious
iprev fail; accept iff `prob ≤ threshold`; `junkSubjectpass` iff
`prob < threshold - 0.2`. -/
def contentStep (env : Env) (suspiciousIPrevFail : Bool) :
    Except Analysis (Bool × Bool × String) :=
  match env.junkFilter with
  | .noJunkFilter => .ok (true, false, reasonNoBadSignals)
  | .openError e =>
    .error (reject C451LocalErr SeSys3Other0 "error processing" (some e)
      reasonJunkFilterError)
  | .opened jfThreshold classify =>
    match classify with
    | .error e =>
      .error (reject C451LocalErr SeSys3Other0 "error processing" (some e)
        reasonJunkClassifyError)
    | .ok contentProb =>
      let jitter : ℚ := (env.jitterRaw - 1/2) / 10
      let threshold0 : ℚ := jfThreshold + jitter
      let strict := suspiciousIPrevFail && decide (threshold0 > 1/4)
      let threshold : ℚ := if strict then 1/4 else threshold0
      let reason := if strict then reasonJunkContentStrict else reasonJunkContent
      .ok (decide (contentProb ≤ threshold),
        decide (contentProb < threshold - 1/5), reason)

/-- The DNSBL loop (analyze.go lines 294-324): zones consulted serially;
an unhealthy zone is skipped without a lookup; the first healthy zone
listing the IP stops the scan.  Returns the blocking zone (if any) and
the trace of zones whose IP lookup was actually performed. -/
def dnsblScan (healthy listed : Domain → Bool) :
    List Domain → Option Domain × List Domain
  | [] => (none, [])
  | z :: zs =>
    if ¬ healthy z then dnsblScan healthy listed zs
    else if listed z then (some z, [z])
    else
      let r := dnsblScan healthy listed zs
      (r.1, z :: r.2)

/-- Analyze from the content-classification step on (analyze.go lines
251-337), given the outcomes of the earlier steps as arguments. -/
def analyzeContent (d : Delivery) (env : Env) (suspiciousIPrevFail : Bool)
    (method : ReputationMethod) (subjectpassKey : String) : Analysis :=
  match contentStep env suspiciousIPrevFail with
  | .error a => a
  | .ok (accept0, junkSubjectpass, reason0) =>
    let scan := if accept0 then
        dnsblScan env.dnsblHealthy env.dnsblListed d.dnsBLs
      else (none, [])
    let dnsblocklisted := scan.1.isSome
    let accept := accept0 && !dnsblocklisted
    let reason := if dnsblocklisted then reasonDNSBlocklisted else reason0
    if accept then { accept := true, reason := reasonNoBadSignals }
    else if subjectpassKey ≠ "" ∧ d.dmarcStatus = .pass ∧ method = .rnone ∧
        (dnsblocklisted ∨ junkSubjectpass) then
      reject C550MailboxUnavail SePol7DeliveryUnauth1
        (subjectpassExplanation ++ env.subjectpassToken) none
        reasonGiveSubjectpass
    else reject C451LocalErr SeSys3Other0 "error processing" none reason

/-- The inbound analyzer (`analyze`, analyze.go lines 69-337). -/
def analyze (d : Delivery) (env : Env) : Analysis :=
  if listAllowed d env then { accept := true, reason := reasonListAllow }
  else if d.dmarcUse && d.dmarcReject then
    reject C550MailboxUnavail SePol7MultiAuthFails26
      "rejecting per dmarc policy" none reasonDMARCPolicy
  else
    let dmarcReport := extractedDmarcReport d env
    let tlsReport := extractedTlsReport d env
    match repLookup env with
    | .error e =>
      reject C451LocalErr SeSys3Other0 "error processing" (some e)
        reasonReputationError
    | .ok (isjunk, conclusive, method) =>
      let reason := method.toStr
      if conclusive then
        if isjunk = some false then
          { accept := true, dmarcReport := dmarcReport,
            tlsReport := tlsReport, reason := reason }
        else
          reject C451LocalErr SeSys3Other0 "error processing" none reason
      else if dmarcReport.isSome || tlsReport.isSome then
        { accept := true, dmarcReport := dmarcReport,
          tlsReport := tlsReport, reason := reasonReporting }
      else if methodNoHistory method &&
          (decide (d.mailFromValidation = .fail) ||
            decide (d.mailFromValidation = .softfail)) then
        reject C451LocalErr SeSys3Other0 "error processing" none
          reasonSPFPolicy
      else
        let suspiciousIPrevFail :=
          methodNoHistory method && decide (d.iprevStatus ≠ .pass)
        if suspiciousIPrevFail && decide (isjunk = some true) then
          reject C451LocalErr SeSys3Other0 "error processing" none reasonIPrev
        else if env.subjectPassPeriodPos then
          match env.subjectpassKey with
          | .error e =>
            reject C451LocalErr SeSys3Other0 "error processing" (some e)
              reasonSubjectpassError
          | .ok key =>
            if env.subjectpassVerify then
              { accept := true, reason := reasonSubjectpass }
            else analyzeContent d env suspiciousIPrevFail method key
        else analyzeContent d env suspiciousIPrevFail method ""

/-! ## Control-socket data-stream framing (ctl.go) -/

/-- The bytes of a string (one byte per character; the protocol strings
are ASCII). -/
def strBytes (s : String) : List Nat := s.data.map Char.toNat

/-- Decimal digit bytes, most significant first; `fuel` bounds the
number of digits (any `fuel > n` is enough). -/
def encNatCore (fuel : Nat) (n : Nat) : List Nat :=
  match fuel with
  | 0 => []
  | f + 1 => if n < 10 then [48 + n] else encNatCore f (n / 10) ++ [48 + n % 10]

/-- Decimal digit bytes of a natural number, most significant first
(the bytes `fmt.Fprintf("%d", n)` produces). -/
def encNat (n : Nat) : List Nat := encNatCore (n + 1) n

/-- One decimal digit byte back to its value. -/
def decDigit (b : Nat) : Option Nat :=
  if 48 ≤ b ∧ b ≤ 57 then some (b - 48) else none

/-- Accumulating decimal parse of digit bytes. -/
def decNatCore (a : Nat) : List Nat → Option Nat
  | [] => some a
  | b :: bs =>
    match decDigit b with
    | none => none
    | some v => decNatCore (10 * a + v) bs

/-- Parse a count line as `strconv.ParseInt(line, 10, 32)` does on the
digit strings the writer emits: a nonempty all-digit byte list whose
value fits in an int32 (ParseInt with bitSize 32 errors on values above
`2^31 - 1`, and `ctlreader.Read` turns that error into a protocol
error). -/
def decNat : List Nat → Option Nat
  | [] => none
  | l =>
    match decNatCore 0 l with
    | none => none
    | some n => if n < 2 ^ 31 then some n else none

/-- `ctl.xwrite(text)`: the line `text` followed by a newline. -/
def xwriteBytes (text : String) : List Nat := strBytes text ++ [10]

/-- The greeting `servectl` sends on connection: `ctl.xwrite("ctlv0")`. -/
def servectlGreeting : List Nat := xwriteBytes "ctlv0"

/-- `ctlwriter.Write(buf)`: the bytes put on the wire for one write — a
decimal count line followed by exactly the `len(buf)` data bytes. -/
def ctlwriterFrame (buf : List Nat) : List Nat :=
  encNat buf.length ++ [10] ++ buf

/-- A full data stream as produced by a sequence of writes followed by
`ctlwriter.xclose`: the frames, then the terminating count line `0`. -/
def ctlStream (chunks : List (List Nat)) : List Nat :=
  (chunks.map ctlwriterFrame).flatten ++ encNat 0 ++ [10]

/-- `bufio.Reader.ReadString('\n')`: the bytes before the first newline
and the remaining wire; `none` when no newline is present. -/
def readLine : List Nat → Option (List Nat × List Nat)
  | [] => none
  | b :: bs =>
    if b = 10 then some ([], bs)
    else match readLine bs with
      | none => none
      | some p => some (b :: p.1, p.2)

/-- The `ctlreader` state: bytes still pending in the current frame, and
whether end-of-stream (`io.EOF`) was reached. -/
structure RState where
  npending : Nat
  eof : Bool
deriving DecidableEq, Repr

/-- `ctlreader.Read` with a buffer of size `b`: returns the data bytes
read, whether an `ok` line was written back (exactly when the current
frame became fully consumed), the new state, and the remaining wire.
A count line `0` sets the EOF state. -/
def ctlreaderRead (b : Nat) (st : RState) (w : List Nat) :
    Except String (List Nat × Bool × RState × List Nat) :=
  if st.eof then .ok ([], false, st, w)
  else
    let count : Except String (Nat × List Nat) :=
      if st.npending = 0 then
        match readLine w with
        | none => .error "reading count"
        | some p =>
          match decNat p.1 with
          | none => .error "parsing count line"
          | some n => .ok (n, p.2)
      else .ok (st.npending, w)
    match count with
    | .error e => .error e
    | .ok (n, w1) =>
      if n = 0 then .ok ([], false, ⟨0, true⟩, w1)
      else
        let rn := min b n
        if w1.length < rn then .error "read from ctl"
        else
          let np := n - rn
          .ok (w1.take rn, decide (np = 0), ⟨np, false⟩, w1.drop rn)

/-- Drive `ctlreader.Read` to end-of-stream (as `io.Copy` does), returning
the concatenation of all data bytes read, the number of `ok` lines
written, and whether EOF was reached.  `fuel` bounds the number of reads;
with a nonempty buffer every read consumes wire bytes, so any
`fuel > w.length` is enough. -/
def runReader (b : Nat) : Nat → RState → List Nat →
    Except String (List Nat × Nat × Bool)
  | 0, _, _ => .error "out of fuel"
  | fuel + 1, st, w =>
    match ctlreaderRead b st w with
    | .error e => .error e
    | .ok (data, okE, st2, w2) =>
      if st2.eof then .ok (data, if okE then 1 else 0, true)
      else
        match runReader b fuel st2 w2 with
        | .error e => .error e
        | .ok (rest, oks, f) =>
          .ok (data ++ rest, (if okE then 1 else 0) + oks, f)

/-! ## MTA-STS (mtasts/mtasts.go) -/

/-- `STSMX`: an allowlisted MX host name/pattern of an MTA-STS policy. -/
structure STSMX where
  wildcard : Bool
  domain : Domain
deriving DecidableEq, Repr

/-- `mtasts.Policy`, restricted to the fields `Matches` reads. -/
structure MtastsPolicy where
  mx : List STSMX
deriving DecidableEq, Repr

/-- `strings.SplitN(s, ".", 2)` when it yields two parts: the part before
the first `.` and the rest; `none` when `s` has no `.`. -/
def splitFirstDot : List Char → Option (List Char × List Char)
  | [] => none
  | c :: cs =>
    if c = '.' then some ([], cs)
    else match splitFirstDot cs with
      | none => none
      | some p => some (c :: p.1, p.2)

/-- `Policy.Matches(host)`: whether the hostname matches the mx list; a
wildcard entry matches when the part of the host after its first label
equals the entry's domain. -/
def policyMatches (p : MtastsPolicy) (host : Domain) : Bool :=
  p.mx.any fun mx =>
    if mx.wildcard then
      match splitFirstDot host.ascii.data with
      | some v => decide (v.2 = mx.domain.ascii.data)
      | none => false
    else decide (host = mx.domain)

/-- The outcome of the HTTPS GET for the policy, as seen by `FetchPolicy`:
DNS said the host does not exist, the server redirected, another
transport error, or a status with a full body. -/
inductive HTTPOutcome
  | dnsNotFound
  | redirect
  | doError (e : String)
  | response (status : Nat) (body : List Nat)

/-- The error classes of `FetchPolicy`. -/
inductive FetchErr
  | noPolicy
  | policyFetch (msg : String)
  | policySyntax (msg : String)
deriving DecidableEq, Repr

/-- `context.WithTimeout(ctx, time.Minute)` in `FetchPolicy`: the fetch
deadline in seconds. -/
def fetchPolicyTimeoutSeconds : Nat := 60

/-- Modelled from the spec: `moxio.LimitReader` (package moxio is outside
the provided sources; "Policy fetch is ≤64 KiB") — reading a body longer
than the limit fails with an error instead of yielding truncated data. -/
def limitReaderReadAll (limit : Nat) (body : List Nat) :
    Except String (List Nat) :=
  if body.length > limit then .error "body too large" else .ok body

/-- `FetchPolicy` (mtasts.go lines 257-310) over the HTTP outcome oracle.
`HTTPClient.CheckRedirect` always returns an error, so a redirect
response surfaces as a transport error from `Do` and is classified as a
policy-fetch error.  The policy parser is an oracle argument (it lives in
`mtasts/parse.go`, outside the provided sources). -/
def FetchPolicy (parsePolicy : List Nat → Except String MtastsPolicy)
    (o : HTTPOutcome) : Except FetchErr (MtastsPolicy × List Nat) :=
  match o with
  | .dnsNotFound => .error .noPolicy
  | .redirect =>
    .error (.policyFetch "http get: redirect not allowed for MTA-STS policies")
  | .doError e => .error (.policyFetch ("http get: " ++ e))
  | .response status body =>
    if status = 404 then .error .noPolicy
    else if status ≠ 200 then
      .error (.policyFetch "http status while status 200 is required")
    else
      match limitReaderReadAll (64 * 1024) body with
      | .error e => .error (.policySyntax ("reading policy: " ++ e))
      | .ok buf =>
        match parsePolicy buf with
        | .error e => .error (.policySyntax ("parsing policy: " ++ e))
        | .ok p => .ok (p, buf)

/-! ## Shared lemmas about the analyzer -/

/-- The error-classification invariant of one analysis value: among
rejections, an internal error forces `451 5.3.0` with `userError` false,
a `550` carries no internal error and `userError` true, and `userError`
holds exactly when the internal error is nil. -/
def ErrInv (a : Analysis) : Prop :=
  a.accept = false →
    (a.err ≠ none → a.code = 451 ∧ a.secode = "5.3.0" ∧ a.userError = false) ∧
    (a.code = 550 → a.err = none ∧ a.userError = true) ∧
    (a.userError = true ↔ a.err = none)

lemma errInv_reject451 (m : String) (e : Option String) (r : String) :
    ErrInv (reject C451LocalErr SeSys3Other0 m e r) := by
  intro _
  cases e <;>
    simp [reject, C451LocalErr, SeSys3Other0]

lemma errInv_reject550 (se m : String) (r : String) :
    ErrInv (reject C550MailboxUnavail se m none r) := by
  intro _
  simp [reject, C550MailboxUnavail]

lemma errInv_contentStep (env : Env) (s : Bool) (a : Analysis)
    (h : contentStep env s = .error a) : ErrInv a := by
  unfold contentStep at h
  rcases hj : env.junkFilter with ⟨t, c⟩ | _ | e <;> simp [hj] at h
  · rcases c with e | p <;> simp at h
    · exact h ▸ errInv_reject451 _ _ _
  · exact h ▸ errInv_reject451 _ _ _

lemma errInv_analyzeContent (d : Delivery) (env : Env) (s : Bool)
    (m : ReputationMethod) (k : String) :
    ErrInv (analyzeContent d env s m k) := by
  unfold analyzeContent
  rcases hc : contentStep env s with a | ⟨a0, js, r0⟩
  · exact errInv_contentStep env s _ hc
  · simp only
    split_ifs <;>
      first
        | exact errInv_reject550 _ _ _
        | exact errInv_reject451 _ _ _
        | (intro h; simp_all)

/-! ## Claims -/

/-- C1: once `analyze` reaches the reputation lookup (list allowance and
DMARC reject did not fire, the transaction succeeded): a conclusive
non-junk verdict accepts with the method as reason; a conclusive junk
verdict rejects `451 5.3.0` with the method as reason; an inconclusive
verdict with a validated DMARC or TLS report accepts with reason
`reporting`. -/
theorem claim_C1_reputation_step (d : Delivery) (env : Env)
    (h1 : listAllowed d env = false)
    (h2 : (d.dmarcUse && d.dmarcReject) = false)
    (h3 : env.mailboxFind = .ok ()) :
    (∀ m, env.reputation = .ok (some false, true, m) →
      (analyze d env).accept = true ∧ (analyze d env).reason = m.toStr) ∧
    (∀ m, env.reputation = .ok (some true, true, m) →
      (analyze d env).accept = false ∧ (analyze d env).code = 451 ∧
      (analyze d env).secode = "5.3.0" ∧ (analyze d env).reason = m.toStr) ∧
    (∀ m j, env.reputation = .ok (j, false, m) →
      (extractedDmarcReport d env ≠ none ∨ extractedTlsReport d env ≠ none) →
      (analyze d env).accept = true ∧ (analyze d env).reason = "reporting") := by
  refine ⟨?_, ?_, ?_⟩
  · intro m hm
    unfold analyze repLookup
    simp [h1, h2, h3, hm]
  · intro m hm
    unfold analyze repLookup
    simp [h1, h2, h3, hm, reject, C451LocalErr, SeSys3Other0]
  · intro m j hm hrep
    unfold analyze repLookup
    simp [h1, h2, h3, hm, reasonReporting]
    rcases hrep with h | h <;> simp [Option.isSome_iff_ne_none, h]

/-- Concrete delivery for the C1 witness: no ruleset, no DMARC reject,
conclusive good ip1 reputation. -/
def C1d : Delivery :=
  { mailFromValidated := false, mailFromDomain := "", mailFromValidation := .pass,
    dkimResults := [], dmarcUse := true, dmarcReject := false,
    dmarcStatus := .pass, iprevStatus := .pass,
    destDMARCReports := false, destTLSReports := false, destMailbox := "",
    msgFromDomain := ⟨"example.org", ""⟩, dnsBLs := [] }

def C1env : Env :=
  { rs := none, dmarcParse := .error "p", tlsParse := .error "p",
    parseDomain := fun _ => .error "p", confDomain := fun _ => false,
    nowUnix := 0, mailboxFind := .ok (),
    reputation := .ok (some false, true, .ip1),
    subjectPassPeriodPos := false, subjectpassKey := .error "n",
    subjectpassVerify := false, junkFilter := .noJunkFilter,
    dnsblHealthy := fun _ => true, dnsblListed := fun _ => false,
    jitterRaw := 1/2, subjectpassToken := "tok" }

theorem claim_C1_witness :
    (analyze C1d C1env).accept = true ∧ (analyze C1d C1env).reason = "ip1" :=
  (claim_C1_reputation_step C1d C1env rfl rfl rfl).1 .ip1 rfl

/-- C2: the list-allow step runs first and its condition is exactly the
claimed one; when it holds `analyze` accepts with reason `list-allow`
regardless of DMARC, and when it fails while DMARC is in use with a
reject evaluation, `analyze` rejects `550 5.7.26` reason `dmarc-policy`. -/
theorem claim_C2_list_allow_then_dmarc (d : Delivery) (env : Env) :
    (listAllowed d env = true ↔
      ∃ rs, env.rs = some rs ∧ rs.listAllowDNSDomain.IsZero = false ∧
        ((d.mailFromValidated = true ∧
            rs.listAllowDNSDomain.Name = d.mailFromDomain) ∨
          ∃ r ∈ d.dkimResults, r.status = .pass ∧
            r.sigDomain = rs.listAllowDNSDomain)) ∧
    (listAllowed d env = true →
      analyze d env = { accept := true, reason := "list-allow" }) ∧
    (listAllowed d env = false → d.dmarcUse = true → d.dmarcReject = true →
      (analyze d env).accept = false ∧ (analyze d env).code = 550 ∧
      (analyze d env).secode = "5.7.26" ∧
      (analyze d env).reason = "dmarc-policy") := by
  refine ⟨?_, ?_, ?_⟩
  · unfold listAllowed
    rcases hrs : env.rs with _ | rs
    · simp
    · simp only
      split_ifs with hz
      · simp [hz]
      · rw [Bool.not_eq_true] at hz
        simp [hz, List.any_eq_true, Bool.or_eq_true, Bool.and_eq_true,
          decide_eq_true_eq]
  · intro h
    unfold analyze
    simp [h, reasonListAllow]
  · intro h h1 h2
    unfold analyze
    simp [h, h1, h2, reject, C550MailboxUnavail, SePol7MultiAuthFails26,
      reasonDMARCPolicy]

/-- Delivery for the C2 witness: list-allow fires through a DKIM pass from
the list domain even though DMARC evaluated to reject. -/
def C2d : Delivery :=
  { mailFromValidated := false, mailFromDomain := "", mailFromValidation := .fail,
    dkimResults := [⟨.pass, ⟨"list.example", ""⟩, -1, false⟩],
    dmarcUse := true, dmarcReject := true,
    dmarcStatus := .fail, iprevStatus := .fail,
    destDMARCReports := false, destTLSReports := false, destMailbox := "",
    msgFromDomain := ⟨"example.org", ""⟩, dnsBLs := [] }

def C2env : Env :=
  { rs := some ⟨⟨"list.example", ""⟩, "lists"⟩,
    dmarcParse := .error "p", tlsParse := .error "p",
    parseDomain := fun _ => .error "p", confDomain := fun _ => false,
    nowUnix := 0, mailboxFind := .ok (),
    reputation := .ok (none, false, .rnone),
    subjectPassPeriodPos := false, subjectpassKey := .error "n",
    subjectpassVerify := false, junkFilter := .noJunkFilter,
    dnsblHealthy := fun _ => true, dnsblListed := fun _ => false,
    jitterRaw := 1/2, subjectpassToken := "tok" }

theorem claim_C2_witness :
    analyze C2d C2env = { accept := true, reason := "list-allow" } :=
  (claim_C2_list_allow_then_dmarc C2d C2env).2.1 rfl

/-- C7: in every rejection `analyze` returns, a non-nil internal error
forces `451 5.3.0` with `user_error` false, every `550` rejection has a
nil internal error and `user_error` true, and `user_error` holds exactly
when the internal error is nil. -/
theorem claim_C7_error_classes (d : Delivery) (env : Env) :
    ErrInv (analyze d env) := by
  unfold analyze
  rcases hr : repLookup env with e | ⟨isjunk, conclusive, method⟩ <;>
    rcases hk : env.subjectpassKey with ke | key <;>
      simp only [hr, hk] <;>
        split_ifs <;>
          first
            | exact errInv_reject550 _ _ _
            | exact errInv_reject451 _ _ _
            | exact errInv_analyzeContent _ _ _ _ _
            | (intro h; simp_all)

/-- Environment for the C7 witness: the reputation transaction fails, so
the rejection carries an internal error. -/
def C7env : Env :=
  { rs := none, dmarcParse := .error "p", tlsParse := .error "p",
    parseDomain := fun _ => .error "p", confDomain := fun _ => false,
    nowUnix := 0, mailboxFind := .ok (),
    reputation := .error "db broken",
    subjectPassPeriodPos := false, subjectpassKey := .error "n",
    subjectpassVerify := false, junkFilter := .noJunkFilter,
    dnsblHealthy := fun _ => true, dnsblListed := fun _ => false,
    jitterRaw := 1/2, subjectpassToken := "tok" }

theorem claim_C7_witness :
    (analyze C1d C7env).code = 451 ∧ (analyze C1d C7env).secode = "5.3.0" ∧
    (analyze C1d C7env).userError = false :=
  (claim_C7_error_classes C1d C7env rfl).1 (by decide)

lemma contentStep_js_imp_a0 (env : Env) (s : Bool) (a0 js : Bool) (r0 : String)
    (hc : contentStep env s = .ok (a0, js, r0)) (hjs : js = true) :
    a0 = true := by
  unfold contentStep at hc
  rcases hj : env.junkFilter with ⟨t, c⟩ | _ | e <;> simp [hj] at hc
  · rcases c with e | p <;> simp at hc
    obtain ⟨h1, h2, h3⟩ := hc
    rw [← h2, decide_eq_true_eq] at hjs
    rw [← h1, decide_eq_true_eq]
    linarith
  · simp_all

/-- C3: with a junk filter present and a successful classification, the
jitter lies in `[-0.05, 0.05]`, the threshold is the filter threshold plus
jitter, tightened to `0.25` (its minimum with `0.25`) on a suspicious
iprev result; the message is provisionally accepted iff
`prob ≤ threshold` and `junk_subjectpass` is set iff
`prob < threshold - 0.2`; with no DNSBL zones the provisional acceptance
is the final one. -/
theorem claim_C3_content (env : Env) (s : Bool) (t prob jitter threshold : ℚ)
    (hf : env.junkFilter = .opened t (.ok prob))
    (h0 : 0 ≤ env.jitterRaw) (h1 : env.jitterRaw < 1)
    (hjit : jitter = (env.jitterRaw - 1/2) / 10)
    (hthr : threshold = if s then min (t + jitter) (1/4) else t + jitter) :
    (-(1/20) ≤ jitter ∧ jitter ≤ 1/20) ∧
    contentStep env s = .ok (decide (prob ≤ threshold),
      decide (prob < threshold - 1/5),
      if s && decide (t + jitter > 1/4) then "junk-content-strict"
      else "junk-content") ∧
    (∀ d m k, d.dnsBLs = [] →
      (analyzeContent d env s m k).accept = decide (prob ≤ threshold)) := by
  have hsel : (if (s && decide (t + jitter > 1/4)) = true then (1/4 : ℚ)
      else t + jitter) = threshold := by
    rw [hthr]
    cases s with
    | false => simp
    | true =>
      simp only [Bool.true_and, if_true, decide_eq_true_eq]
      split_ifs with hq
      · exact (min_eq_right hq.le).symm
      · exact (min_eq_left (not_lt.1 hq)).symm
  have hstep : contentStep env s = .ok (decide (prob ≤ threshold),
      decide (prob < threshold - 1/5),
      if s && decide (t + jitter > 1/4) then "junk-content-strict"
      else "junk-content") := by
    unfold contentStep
    simp only [hf, ← hjit, hsel]
    rfl
  refine ⟨⟨by rw [hjit]; linarith, by rw [hjit]; linarith⟩, hstep, ?_⟩
  intro d m k hz
  unfold analyzeContent
  rw [hstep]
  simp only [hz, dnsblScan]
  split_ifs <;> simp_all [reject]

/-- Environment for the C3 witness: threshold 1/2, no jitter,
classification probability 1/10. -/
def C3env : Env :=
  { rs := none, dmarcParse := .error "p", tlsParse := .error "p",
    parseDomain := fun _ => .error "p", confDomain := fun _ => false,
    nowUnix := 0, mailboxFind := .ok (),
    reputation := .ok (none, false, .rnone),
    subjectPassPeriodPos := false, subjectpassKey := .error "n",
    subjectpassVerify := false,
    junkFilter := .opened (1/2) (.ok (1/10)),
    dnsblHealthy := fun _ => true, dnsblListed := fun _ => false,
    jitterRaw := 1/2, subjectpassToken := "tok" }

theorem claim_C3_witness :
    contentStep C3env false = .ok (decide ((1:ℚ)/10 ≤ 1/2),
      decide ((1:ℚ)/10 < 1/2 - 1/5),
      if false && decide ((1:ℚ)/2 + 0 > 1/4) then "junk-content-strict"
      else "junk-content") :=
  (claim_C3_content C3env false (1/2) (1/10) 0 (1/2) rfl
    (by norm_num [C3env]) (by norm_num [C3env])
    (by norm_num [C3env]) (by norm_num)).2.1

/-- Delivery and environment refuting C4 as stated: subjectpass is
configured, DMARC passed, reputation gave no history, and the message is
rejected for spammy content — yet the result is `451 5.3.0`, not the
claimed `550 5.7.1` subjectpass challenge. -/
def C4d : Delivery :=
  { mailFromValidated := false, mailFromDomain := "", mailFromValidation := .pass,
    dkimResults := [], dmarcUse := true, dmarcReject := false,
    dmarcStatus := .pass, iprevStatus := .pass,
    destDMARCReports := false, destTLSReports := false, destMailbox := "",
    msgFromDomain := ⟨"example.org", ""⟩, dnsBLs := [] }

def C4env : Env :=
  { rs := none, dmarcParse := .error "p", tlsParse := .error "p",
    parseDomain := fun _ => .error "p", confDomain := fun _ => false,
    nowUnix := 0, mailboxFind := .ok (),
    reputation := .ok (none, false, .rnone),
    subjectPassPeriodPos := true, subjectpassKey := .ok "k",
    subjectpassVerify := false,
    junkFilter := .opened (1/2) (.ok 1),
    dnsblHealthy := fun _ => true, dnsblListed := fun _ => false,
    jitterRaw := 1/2, subjectpassToken := "tok" }

/-- C4 counterexample: all premises of the claim hold with rejection
cause "spammy content" (reason `junk-content`), yet the analyzer returns
`451 5.3.0` instead of the claimed `550 5.7.1`. -/
theorem claim_C4_counterexample :
    C4env.subjectPassPeriodPos = true ∧ C4env.subjectpassKey = .ok "k" ∧
    C4d.dmarcStatus = .pass ∧ C4env.reputation = .ok (none, false, .rnone) ∧
    (analyze C4d C4env).accept = false ∧
    (analyze C4d C4env).reason = "junk-content" ∧
    (analyze C4d C4env).code = 451 ∧ (analyze C4d C4env).secode = "5.3.0" ∧
    ¬((analyze C4d C4env).code = 550 ∧
      (analyze C4d C4env).secode = "5.7.1") := by
  have hval : analyze C4d C4env =
      reject 451 "5.3.0" "error processing" none "junk-content" := by
    simp [analyze, listAllowed, C4d, C4env, repLookup, extractedDmarcReport,
      extractedTlsReport, methodNoHistory, analyzeContent, contentStep,
      dnsblScan, ReputationMethod.toStr, C451LocalErr, SeSys3Other0,
      reasonJunkContent]
    norm_num
  rw [hval]
  simp [reject, C4d, C4env]

/-- C4 as amended: the subjectpass challenge (`550 5.7.1` with the
explanation prefix and a fresh token) is issued exactly when the key was
obtained, DMARC passed, the method is `none` and the rejection cause was
a DNSBL hit; the spammy-content disjunct is unreachable because the
`junk_subjectpass` flag forces provisional acceptance, and every other
rejection at this step is `451 5.3.0`. -/
theorem claim_C4_amended (d : Delivery) (env : Env) (s : Bool)
    (m : ReputationMethod) (k : String) (a0 js : Bool) (r0 : String)
    (blocked : Bool)
    (hc : contentStep env s = .ok (a0, js, r0))
    (hb : blocked = (if a0 = true then
      dnsblScan env.dnsblHealthy env.dnsblListed d.dnsBLs
      else (none, [])).1.isSome)
    (hrej : (analyzeContent d env s m k).accept = false) :
    (js = true → a0 = true) ∧
    ((k ≠ "" ∧ d.dmarcStatus = .pass ∧ m = .rnone ∧ blocked = true) →
      (analyzeContent d env s m k).code = 550 ∧
      (analyzeContent d env s m k).secode = "5.7.1" ∧
      (analyzeContent d env s m k).errmsg =
        subjectpassExplanation ++ env.subjectpassToken ∧
      (analyzeContent d env s m k).reason = "give-subjectpass") ∧
    (¬(k ≠ "" ∧ d.dmarcStatus = .pass ∧ m = .rnone ∧ blocked = true) →
      (analyzeContent d env s m k).code = 451 ∧
      (analyzeContent d env s m k).secode = "5.3.0") := by
  refine ⟨contentStep_js_imp_a0 env s a0 js r0 hc, ?_, ?_⟩
  · rintro ⟨hk, hdm, hm, hbl⟩
    subst hb
    unfold analyzeContent at hrej ⊢
    rw [hc] at hrej ⊢
    simp only at hrej ⊢
    cases ha0 : a0 with
    | false => simp [ha0] at hbl
    | true =>
      simp only [ha0, if_true] at hbl
      have hne : (dnsblScan env.dnsblHealthy env.dnsblListed d.dnsBLs).1 ≠ none :=
        Option.isSome_iff_ne_none.mp hbl
      simp [ha0, hbl, hne, hk, hdm, hm, reject, C550MailboxUnavail,
        SePol7DeliveryUnauth1, reasonGiveSubjectpass]
  · intro hneg
    subst hb
    unfold analyzeContent at hrej ⊢
    rw [hc] at hrej ⊢
    simp only at hrej ⊢
    cases ha0 : a0 with
    | true =>
      cases hbl : (dnsblScan env.dnsblHealthy env.dnsblListed d.dnsBLs).1.isSome with
      | false => simp [ha0, hbl] at hrej
      | true =>
        have hno : ¬(k ≠ "" ∧ d.dmarcStatus = .pass ∧ m = .rnone) := by
          rintro ⟨x, y, z⟩
          exact hneg ⟨x, y, z, by simp [ha0, hbl]⟩
        have hne : (dnsblScan env.dnsblHealthy env.dnsblListed d.dnsBLs).1 ≠ none :=
          Option.isSome_iff_ne_none.mp hbl
        simp [ha0, hbl, hne, hno, reject, C451LocalErr, SeSys3Other0]
    | false =>
      have hjs : js = false := by
        cases hjsv : js with
        | false => rfl
        | true =>
          rw [contentStep_js_imp_a0 env s a0 js r0 hc hjsv] at ha0
          exact absurd ha0 (by simp)
      simp [ha0, hjs, reject, C451LocalErr, SeSys3Other0, dnsblScan]

/-- Delivery and environment for the C4/C5 DNSBL-with-subjectpass case:
no junk filter, one healthy listed zone, subjectpass key obtained, DMARC
pass, method `none`. -/
def C4wd : Delivery :=
  { mailFromValidated := false, mailFromDomain := "", mailFromValidation := .pass,
    dkimResults := [], dmarcUse := true, dmarcReject := false,
    dmarcStatus := .pass, iprevStatus := .pass,
    destDMARCReports := false, destTLSReports := false, destMailbox := "",
    msgFromDomain := ⟨"example.org", ""⟩, dnsBLs := [⟨"dnsbl.example", ""⟩] }

def C4wenv : Env :=
  { rs := none, dmarcParse := .error "p", tlsParse := .error "p",
    parseDomain := fun _ => .error "p", confDomain := fun _ => false,
    nowUnix := 0, mailboxFind := .ok (),
    reputation := .ok (none, false, .rnone),
    subjectPassPeriodPos := true, subjectpassKey := .ok "k",
    subjectpassVerify := false, junkFilter := .noJunkFilter,
    dnsblHealthy := fun _ => true, dnsblListed := fun _ => true,
    jitterRaw := 1/2, subjectpassToken := "tok" }

theorem claim_C4_witness :
    (analyzeContent C4wd C4wenv false .rnone "k").code = 550 ∧
    (analyzeContent C4wd C4wenv false .rnone "k").secode = "5.7.1" ∧
    (analyzeContent C4wd C4wenv false .rnone "k").errmsg =
      subjectpassExplanation ++ C4wenv.subjectpassToken ∧
    (analyzeContent C4wd C4wenv false .rnone "k").reason = "give-subjectpass" :=
  (claim_C4_amended C4wd C4wenv false .rnone "k" true false reasonNoBadSignals
    true rfl rfl rfl).2.1 ⟨by decide, rfl, rfl, rfl⟩

lemma dnsblScan_find (healthy listed : Domain → Bool) (zs : List Domain) :
    (dnsblScan healthy listed zs).1 =
      zs.find? (fun z => healthy z && listed z) := by
  induction zs with
  | nil => simp [dnsblScan]
  | cons z zs ih =>
    unfold dnsblScan
    by_cases hz : healthy z
    · by_cases hl : listed z
      · simp [hz, hl, List.find?]
      · simp [hz, hl, List.find?, ih]
    · simp [hz, List.find?, ih]

lemma dnsblScan_trace_healthy (healthy listed : Domain → Bool)
    (zs : List Domain) :
    ∀ z ∈ (dnsblScan healthy listed zs).2, healthy z = true := by
  induction zs with
  | nil => simp [dnsblScan]
  | cons z zs ih =>
    unfold dnsblScan
    by_cases hz : healthy z
    · by_cases hl : listed z
      · simp [hz, hl]
      · simp only [hz, hl]
        intro y hy
        simp at hy
        rcases hy with h | h
        · subst h; exact hz
        · exact ih y h
    · simpa [hz] using ih

/-- Delivery and environment refuting C5 as stated: the message is still
accepted after content classification (no junk filter) and a healthy
zone lists the IP, but because the subjectpass conditions of the final
step hold, the rejection is `550 5.7.1` reason `give-subjectpass`, not
the claimed `451 5.3.0` reason `dns-blocklisted`. -/
theorem claim_C5_counterexample :
    contentStep C4wenv false = .ok (true, false, "no-bad-signals") ∧
    (dnsblScan C4wenv.dnsblHealthy C4wenv.dnsblListed C4wd.dnsBLs).1 =
      some ⟨"dnsbl.example", ""⟩ ∧
    (analyze C4wd C4wenv).accept = false ∧
    (analyze C4wd C4wenv).code = 550 ∧
    (analyze C4wd C4wenv).reason = "give-subjectpass" ∧
    ¬((analyze C4wd C4wenv).code = 451 ∧
      (analyze C4wd C4wenv).secode = "5.3.0" ∧
      (analyze C4wd C4wenv).reason = "dns-blocklisted") := by
  refine ⟨rfl, rfl, rfl, rfl, rfl, ?_⟩
  rintro ⟨h, -, -⟩
  revert h
  decide

/-- C5 as amended: zones are consulted serially; the scan stops at the
first healthy listed zone (unhealthy zones are skipped without a lookup
and cannot cause rejection); on a hit the analyzer rejects `451 5.3.0`
reason `dns-blocklisted` unless the final-step subjectpass conditions
hold (then `550 5.7.1` per the final step); with no hit the message is
accepted. -/
theorem claim_C5_amended (d : Delivery) (env : Env) (s : Bool)
    (m : ReputationMethod) (k : String) (js : Bool) (r0 : String)
    (hc : contentStep env s = .ok (true, js, r0)) :
    ((dnsblScan env.dnsblHealthy env.dnsblListed d.dnsBLs).1 =
      d.dnsBLs.find? (fun z => env.dnsblHealthy z && env.dnsblListed z)) ∧
    (∀ z ∈ (dnsblScan env.dnsblHealthy env.dnsblListed d.dnsBLs).2,
      env.dnsblHealthy z = true) ∧
    (∀ z, (dnsblScan env.dnsblHealthy env.dnsblListed d.dnsBLs).1 = some z →
      ¬(k ≠ "" ∧ d.dmarcStatus = .pass ∧ m = .rnone) →
      analyzeContent d env s m k =
        reject 451 "5.3.0" "error processing" none "dns-blocklisted") ∧
    ((dnsblScan env.dnsblHealthy env.dnsblListed d.dnsBLs).1 = none →
      analyzeContent d env s m k =
        { accept := true, reason := "no-bad-signals" }) := by
  refine ⟨dnsblScan_find _ _ _, dnsblScan_trace_healthy _ _ _, ?_, ?_⟩
  · intro z hz hno
    unfold analyzeContent
    rw [hc]
    simp [hz, hno, reject, C451LocalErr, SeSys3Other0, reasonDNSBlocklisted,
      reasonGiveSubjectpass]
  · intro hz
    unfold analyzeContent
    rw [hc]
    simp [hz, reasonNoBadSignals]

/-- Environment for the C5 witness: one healthy listed zone and no
subjectpass, so the DNSBL hit yields `451 5.3.0` `dns-blocklisted`. -/
def C5wenv : Env :=
  { rs := none, dmarcParse := .error "p", tlsParse := .error "p",
    parseDomain := fun _ => .error "p", confDomain := fun _ => false,
    nowUnix := 0, mailboxFind := .ok (),
    reputation := .ok (none, false, .rnone),
    subjectPassPeriodPos := false, subjectpassKey := .error "n",
    subjectpassVerify := false, junkFilter := .noJunkFilter,
    dnsblHealthy := fun _ => true, dnsblListed := fun _ => true,
    jitterRaw := 1/2, subjectpassToken := "tok" }

theorem claim_C5_witness :
    analyzeContent C4wd C5wenv false .rnone "" =
      reject 451 "5.3.0" "error processing" none "dns-blocklisted" :=
  (claim_C5_amended C4wd C5wenv false .rnone "" false reasonNoBadSignals
    rfl).2.2.1 ⟨"dnsbl.example", ""⟩ rfl (by simp)

lemma analyzeContent_reports_none (d : Delivery) (env : Env) (s : Bool)
    (m : ReputationMethod) (k : String) :
    (analyzeContent d env s m k).dmarcReport = none ∧
    (analyzeContent d env s m k).tlsReport = none := by
  unfold analyzeContent
  rcases hc : contentStep env s with a | ⟨a0, js, r0⟩
  · unfold contentStep at hc
    rcases hj : env.junkFilter with ⟨t, c⟩ | _ | e <;> simp [hj] at hc
    · rcases c with e | p <;> simp at hc
      · simp [← hc, reject]
    · simp [← hc, reject]
  · simp only
    split_ifs <;> simp [reject]

/-- C6: a DMARC aggregate report is carried only under DMARC pass, a
successful parse, a parseable and locally configured policy-published
domain, and a date-range end at most 60 seconds in the future (a later
end discards it); a TLS report is carried only under a DKIM pass over the
From-domain with `l=` unset allowing service tlsrpt, a successful parse,
and at least one locally configured policy domain; the reports the
analysis carries are exactly the extracted ones. -/
theorem claim_C6_reports (d : Delivery) (env : Env) :
    (∀ r, extractedDmarcReport d env = some r →
      d.destDMARCReports = true ∧ d.dmarcStatus = .pass ∧
      env.dmarcParse = .ok r ∧
      (∃ dom, env.parseDomain r.policyPublishedDomain = .ok dom ∧
        env.confDomain dom = true) ∧
      r.dateRangeEnd ≤ env.nowUnix + 60) ∧
    (∀ r, env.dmarcParse = .ok r → r.dateRangeEnd > env.nowUnix + 60 →
      extractedDmarcReport d env = none) ∧
    (∀ r, extractedTlsReport d env = some r →
      d.destTLSReports = true ∧
      (∃ dk ∈ d.dkimResults, dk.status = .pass ∧
        dk.sigDomain = d.msgFromDomain ∧ dk.sigLength < 0 ∧
        dk.recordTlsrptAllowed = true) ∧
      env.tlsParse = .ok r ∧
      (∃ p ∈ r.policies, ∃ dom, env.parseDomain p.policyDomain = .ok dom ∧
        env.confDomain dom = true)) ∧
    ((analyze d env).dmarcReport = none ∨
      (analyze d env).dmarcReport = extractedDmarcReport d env) ∧
    ((analyze d env).tlsReport = none ∨
      (analyze d env).tlsReport = extractedTlsReport d env) := by
  refine ⟨?_, ?_, ?_, ?_, ?_⟩
  · intro r hr
    unfold extractedDmarcReport at hr
    cases hdest : d.destDMARCReports with
    | false => rw [hdest] at hr; simp at hr
    | true =>
      rw [hdest] at hr
      simp only [if_true] at hr
      by_cases hst : d.dmarcStatus ≠ DMARCStatus.pass
      · rw [if_pos hst] at hr; simp at hr
      · rw [if_neg hst] at hr
        rw [not_not] at hst
        rcases hp : env.dmarcParse with e | rep
        · rw [hp] at hr; simp only [] at hr; simp at hr
        · rw [hp] at hr; simp only [] at hr
          rcases hdom : env.parseDomain rep.policyPublishedDomain with e | dom
          · rw [hdom] at hr; simp only [] at hr; simp at hr
          · rw [hdom] at hr; simp only [] at hr
            by_cases hconf : env.confDomain dom = true
            · rw [if_neg (not_not_intro hconf)] at hr
              by_cases hlate : rep.dateRangeEnd > env.nowUnix + 60
              · rw [if_pos hlate] at hr; simp at hr
              · rw [if_neg hlate] at hr
                obtain rfl : rep = r := by simpa using hr
                exact ⟨rfl, hst, rfl, ⟨dom, hdom, hconf⟩, not_lt.mp hlate⟩
            · rw [if_pos hconf] at hr; simp at hr
  · intro r hp hlate
    unfold extractedDmarcReport
    cases hdest : d.destDMARCReports with
    | false => simp
    | true =>
      simp only [if_true]
      split_ifs with hst
      · rfl
      · rw [hp]
        simp only []
        rcases hdom : env.parseDomain r.policyPublishedDomain with e | dom
        · rfl
        · simp only []
          by_cases hconf : env.confDomain dom = true
          · rw [if_neg (not_not_intro hconf), if_pos hlate]
          · rw [if_pos hconf]
  · intro r hr
    unfold extractedTlsReport at hr
    cases hdest : d.destTLSReports with
    | false => rw [hdest] at hr; simp at hr
    | true =>
      rw [hdest] at hr
      simp only [if_true] at hr
      by_cases hok : (d.dkimResults.any fun dk =>
          decide (dk.status = DKIMStatus.pass) &&
            decide (dk.sigDomain = d.msgFromDomain) &&
            decide (dk.sigLength < 0) && dk.recordTlsrptAllowed) = true
      · rw [if_neg (not_not_intro hok)] at hr
        rcases hp : env.tlsParse with e | rep
        · rw [hp] at hr; simp only [] at hr; simp at hr
        · rw [hp] at hr; simp only [] at hr
          by_cases hkn : (rep.policies.any fun p =>
              match env.parseDomain p.policyDomain with
              | .error _ => false
              | .ok dom => env.confDomain dom) = true
          · rw [if_pos hkn] at hr
            obtain rfl : rep = r := by simpa using hr
            refine ⟨rfl, ?_, rfl, ?_⟩
            · obtain ⟨dk, hdk, hprop⟩ := List.any_eq_true.mp hok
              simp only [Bool.and_eq_true, decide_eq_true_eq] at hprop
              exact ⟨dk, hdk, hprop.1.1.1, hprop.1.1.2, hprop.1.2, hprop.2⟩
            · obtain ⟨p, hp2, hprop⟩ := List.any_eq_true.mp hkn
              rcases hdom : env.parseDomain p.policyDomain with e | dom <;>
                rw [hdom] at hprop
              · simp at hprop
              · exact ⟨p, hp2, dom, hdom, hprop⟩
          · rw [if_neg hkn] at hr; simp at hr
      · rw [if_pos hok] at hr; simp at hr
  · unfold analyze
    rcases hrl : repLookup env with e | ⟨isjunk, conclusive, method⟩ <;>
      rcases hk : env.subjectpassKey with ke | key <;>
        simp only [hrl, hk] <;>
          split_ifs <;>
            first
              | (left; rfl)
              | (right; rfl)
              | (left; exact (analyzeContent_reports_none _ _ _ _ _).1)
  · unfold analyze
    rcases hrl : repLookup env with e | ⟨isjunk, conclusive, method⟩ <;>
      rcases hk : env.subjectpassKey with ke | key <;>
        simp only [hrl, hk] <;>
          split_ifs <;>
            first
              | (left; rfl)
              | (right; rfl)
              | (left; exact (analyzeContent_reports_none _ _ _ _ _).2)

/-- Delivery and environment for the C6 witness: a DMARC report whose
date-range end is far in the future is discarded. -/
def C6d : Delivery :=
  { mailFromValidated := false, mailFromDomain := "", mailFromValidation := .pass,
    dkimResults := [], dmarcUse := true, dmarcReject := false,
    dmarcStatus := .pass, iprevStatus := .pass,
    destDMARCReports := true, destTLSReports := false, destMailbox := "",
    msgFromDomain := ⟨"example.org", ""⟩, dnsBLs := [] }

def C6env : Env :=
  { rs := none, dmarcParse := .ok ⟨"example.org", 1000⟩,
    tlsParse := .error "p",
    parseDomain := fun _ => .ok ⟨"example.org", ""⟩,
    confDomain := fun _ => true,
    nowUnix := 0, mailboxFind := .ok (),
    reputation := .ok (none, false, .rnone),
    subjectPassPeriodPos := false, subjectpassKey := .error "n",
    subjectpassVerify := false, junkFilter := .noJunkFilter,
    dnsblHealthy := fun _ => true, dnsblListed := fun _ => false,
    jitterRaw := 1/2, subjectpassToken := "tok" }

theorem claim_C6_witness : extractedDmarcReport C6d C6env = none :=
  (claim_C6_reports C6d C6env).2.1 ⟨"example.org", 1000⟩ rfl (by decide)

end Mox

namespace Mox

lemma encNatCore_digits (fuel : Nat) :
    ∀ n, ∀ x ∈ encNatCore fuel n, 48 ≤ x ∧ x ≤ 57 := by
  induction fuel with
  | zero => intro n x hx; simp [encNatCore] at hx
  | succ f ih =>
    intro n x hx
    unfold encNatCore at hx
    split_ifs at hx with h
    · simp at hx
      omega
    · rw [List.mem_append] at hx
      rcases hx with hx | hx
      · exact ih _ x hx
      · simp at hx
        have := Nat.mod_lt n (show 0 < 10 by omega)
        omega

lemma encNat_digits (n : Nat) : ∀ x ∈ encNat n, 48 ≤ x ∧ x ≤ 57 :=
  encNatCore_digits (n + 1) n

lemma readLine_append (l r : List Nat) (hl : ∀ x ∈ l, x ≠ 10) :
    readLine (l ++ 10 :: r) = some (l, r) := by
  induction l with
  | nil => simp [readLine]
  | cons x xs ih =>
    have hx : x ≠ 10 := hl x (by simp)
    have hr := ih (fun y hy => hl y (by simp [hy]))
    simp [readLine, hx, hr]

lemma decNatCore_append (a : Nat) (l1 l2 : List Nat) :
    decNatCore a (l1 ++ l2) =
      match decNatCore a l1 with
      | none => none
      | some a2 => decNatCore a2 l2 := by
  induction l1 generalizing a with
  | nil => simp [decNatCore]
  | cons x xs ih =>
    simp only [List.cons_append, decNatCore]
    cases decDigit x with
    | none => simp
    | some v => simp [ih]

lemma decNatCore_encNatCore (fuel : Nat) :
    ∀ n, n < 10 ^ fuel → decNatCore 0 (encNatCore fuel n) = some n := by
  induction fuel with
  | zero =>
    intro n hn
    interval_cases n
    simp [encNatCore, decNatCore]
  | succ f ih =>
    intro n hn
    unfold encNatCore
    split_ifs with h
    · simp [decNatCore, decDigit]
      rw [if_pos (show 48 + n ≤ 57 by omega)]
    · rw [decNatCore_append]
      have hdiv : n / 10 < 10 ^ f := by
        rw [Nat.div_lt_iff_lt_mul (by omega)]
        calc n < 10 ^ (f + 1) := hn
        _ = 10 ^ f * 10 := by ring
      rw [ih (n / 10) hdiv]
      have hm : n % 10 < 10 := Nat.mod_lt n (by omega)
      simp [decNatCore, decDigit]
      rw [if_pos (show 48 + n % 10 ≤ 57 by omega)]
      show some (10 * (n / 10) + n % 10) = some n
      have hdm : 10 * (n / 10) + n % 10 = n := by omega
      rw [hdm]

lemma encNat_ne_nil (n : Nat) : encNat n ≠ [] := by
  unfold encNat encNatCore
  split_ifs with h
  · simp
  · simp

lemma decNat_encNat (n : Nat) (hn : n < 2 ^ 31) :
    decNat (encNat n) = some n := by
  have h1 : decNatCore 0 (encNat n) = some n := by
    apply decNatCore_encNatCore
    calc n < 10 ^ n := Nat.lt_pow_self (by norm_num) n
    _ ≤ 10 ^ (n + 1) := Nat.pow_le_pow_right (by norm_num) (by omega)
  have h2 := encNat_ne_nil n
  unfold decNat
  cases he : encNat n with
  | nil => exact absurd he h2
  | cons x xs =>
    show (match decNatCore 0 (x :: xs) with
      | none => none
      | some m => if m < 2 ^ 31 then some m else none) = some n
    rw [← he, h1]
    show (if n < 2 ^ 31 then some n else none) = some n
    rw [if_pos hn]

end Mox

namespace Mox

lemma readLine_length (w : List Nat) :
    ∀ l r, readLine w = some (l, r) → w.length = l.length + 1 + r.length := by
  induction w with
  | nil => intro l r h; simp [readLine] at h
  | cons x xs ih =>
    intro l r h
    unfold readLine at h
    split_ifs at h with hx
    · simp at h
      obtain ⟨h1, h2⟩ := h
      subst h1 h2
      simp
      omega
    · cases hr : readLine xs with
      | none => rw [hr] at h; simp at h
      | some p =>
        rw [hr] at h
        simp at h
        obtain ⟨h1, h2⟩ := h
        subst h1 h2
        have hp := ih p.1 p.2 (by rw [hr])
        simp [hp]
        omega

lemma ctlreaderRead_pending (b : Nat) (k : Nat) (hk : 0 < k)
    (c rest : List Nat) (hc : c.length = k) :
    ctlreaderRead b ⟨k, false⟩ (c ++ rest) =
      .ok (c.take (min b k), decide (k - min b k = 0), ⟨k - min b k, false⟩,
        c.drop (min b k) ++ rest) := by
  unfold ctlreaderRead
  simp only [Bool.false_eq_true, if_false]
  rw [if_neg (by omega : ¬ k = 0)]
  simp only []
  rw [if_neg (by omega : ¬ (k = 0))]
  have hrn : min b k ≤ c.length := by omega
  rw [if_neg (by simp; omega : ¬ (c ++ rest).length < min b k)]
  rw [List.take_append_of_le_length hrn, List.drop_append_of_le_length hrn]

end Mox

namespace Mox

lemma ctlreaderRead_frame (b : Nat) (c rest : List Nat) (hc : c ≠ [])
    (hc2 : c.length < 2 ^ 31) :
    ctlreaderRead b ⟨0, false⟩ (ctlwriterFrame c ++ rest) =
      .ok (c.take (min b c.length), decide (c.length - min b c.length = 0),
        ⟨c.length - min b c.length, false⟩,
        c.drop (min b c.length) ++ rest) := by
  have hn : 0 < c.length := List.length_pos.mpr hc
  have hline : readLine (ctlwriterFrame c ++ rest) =
      some (encNat c.length, c ++ rest) := by
    unfold ctlwriterFrame
    have hshape : encNat c.length ++ [10] ++ c ++ rest =
        encNat c.length ++ 10 :: (c ++ rest) := by simp
    rw [hshape]
    exact readLine_append _ _ (fun x hx => by
      have := encNat_digits c.length x hx
      omega)
  unfold ctlreaderRead
  simp only [Bool.false_eq_true, if_false, if_true]
  rw [hline]
  simp only []
  rw [decNat_encNat c.length hc2]
  simp only []
  rw [if_neg (by omega : ¬ (c.length = 0))]
  have hrn : min b c.length ≤ c.length := by omega
  rw [if_neg (by simp only [List.length_append]; omega :
    ¬ (c ++ rest).length < min b c.length)]
  rw [List.take_append_of_le_length hrn, List.drop_append_of_le_length hrn]

lemma ctlreaderRead_term (b : Nat) :
    ctlreaderRead b ⟨0, false⟩ (encNat 0 ++ [10]) =
      .ok ([], false, ⟨0, true⟩, []) := rfl

lemma ctlreaderRead_progress (b : Nat) (hb : 0 < b) (st : RState)
    (w data : List Nat) (okE : Bool) (st2 : RState) (w2 : List Nat)
    (h : ctlreaderRead b st w = .ok (data, okE, st2, w2))
    (h2 : st2.eof = false) : w2.length < w.length := by
  unfold ctlreaderRead at h
  by_cases he : st.eof = true
  · rw [if_pos he] at h
    simp at h
    simp_all
  · rw [if_neg he] at h
    simp only [] at h
    by_cases hnp : st.npending = 0
    · rw [if_pos hnp] at h
      cases hline : readLine w with
      | none => rw [hline] at h; simp at h
      | some p =>
        rw [hline] at h
        simp only [] at h
        cases hd : decNat p.1 with
        | none => rw [hd] at h; simp at h
        | some n =>
          rw [hd] at h
          simp only [] at h
          have hw := readLine_length w p.1 p.2 hline
          by_cases hz : n = 0
          · rw [if_pos hz] at h
            simp at h
            simp_all
          · rw [if_neg hz] at h
            by_cases hlen : p.2.length < min b n
            · rw [if_pos hlen] at h
              simp at h
            · rw [if_neg hlen] at h
              simp at h
              obtain ⟨-, -, -, h4⟩ := h
              rw [← h4]
              simp
              omega
    · rw [if_neg hnp] at h
      simp only [] at h
      rw [if_neg hnp] at h
      by_cases hlen : w.length < min b st.npending
      · rw [if_pos hlen] at h
        simp at h
      · rw [if_neg hlen] at h
        simp at h
        obtain ⟨-, -, -, h4⟩ := h
        rw [← h4]
        have hpos : 0 < min b st.npending := by
          have := Nat.pos_of_ne_zero hnp
          omega
        simp
        omega

end Mox

namespace Mox

lemma runReader_fuel_irrel (b : Nat) (hb : 0 < b) :
    ∀ fuel : Nat, ∀ st w, w.length < fuel → ∀ fuel2, w.length < fuel2 →
      runReader b fuel st w = runReader b fuel2 st w := by
  intro fuel
  induction fuel with
  | zero => intro st w hw; omega
  | succ f ih =>
    intro st w hw fuel2 hw2
    cases fuel2 with
    | zero => omega
    | succ f2 =>
      unfold runReader
      cases hr : ctlreaderRead b st w with
      | error e => rfl
      | ok r =>
        obtain ⟨data, okE, st2, w2⟩ := r
        simp only []
        by_cases he : st2.eof = true
        · rw [if_pos he, if_pos he]
        · rw [if_neg he, if_neg he]
          have hlt := ctlreaderRead_progress b hb st w data okE st2 w2 hr
            (by simpa using he)
          rw [ih st2 w2 (by omega) f2 (by omega)]

lemma runReader_succ (b f : Nat) (st : RState) (w : List Nat) :
    runReader b (f + 1) st w =
      match ctlreaderRead b st w with
      | .error e => .error e
      | .ok (data, okE, st2, w2) =>
        if st2.eof then .ok (data, if okE then 1 else 0, true)
        else
          match runReader b f st2 w2 with
          | .error e => .error e
          | .ok (rest, oks, ff) =>
            .ok (data ++ rest, (if okE then 1 else 0) + oks, ff) := rfl

lemma runReader_pending (b : Nat) (hb : 0 < b) :
    ∀ (N : Nat) (c rest : List Nat) (fuel fuel2 : Nat), c.length = N →
      c ≠ [] → (c ++ rest).length < fuel → rest.length < fuel2 →
      runReader b fuel ⟨c.length, false⟩ (c ++ rest) =
        (runReader b fuel2 ⟨0, false⟩ rest).map
          (fun r => (c ++ r.1, r.2.1 + 1, r.2.2)) := by
  intro N
  induction N using Nat.strong_induction_on with
  | _ N ih =>
    intro c rest fuel fuel2 hN hne hf hf2
    have hcl : 0 < c.length := List.length_pos.mpr hne
    cases fuel with
    | zero => simp at hf
    | succ f =>
      rw [runReader_succ]
      rw [ctlreaderRead_pending b c.length hcl c rest rfl]
      simp only []
      by_cases hall : c.length - min b c.length = 0
      · -- whole remainder of the frame read in one go
        have hrn : min b c.length = c.length := by omega
        simp only [hall, decide_eq_true_eq, eq_self_iff_true, decide_True]
        rw [hrn, List.take_length, List.drop_length]
        simp only [List.nil_append, Bool.false_eq_true, if_false, if_true]
        have hrec : runReader b f ⟨0, false⟩ rest =
            runReader b fuel2 ⟨0, false⟩ rest := by
          apply runReader_fuel_irrel b hb f ⟨0, false⟩ rest ?_ fuel2 hf2
          simp only [List.length_append] at hf
          omega
        rw [hrec]
        rcases hR : runReader b fuel2 ⟨0, false⟩ rest with e | ⟨dd, kk, ff⟩ <;>
          simp [Except.map, Nat.add_comm]
      · -- a strict prefix of the frame was read
        have hrn1 : 1 ≤ min b c.length := by omega
        have hrn : min b c.length < c.length := by omega
        have hd : (c.drop (min b c.length)).length =
            c.length - min b c.length := by simp
        have hdne : c.drop (min b c.length) ≠ [] := by
          intro hx
          rw [hx] at hd
          simp at hd
          omega
        simp only [hall, decide_eq_true_eq, decide_False]
        simp only [Bool.false_eq_true, if_false]
        have hflen : (c.drop (min b c.length) ++ rest).length < f := by
          simp only [List.length_append, List.length_drop]
          simp only [List.length_append] at hf
          omega
        have hrec := ih (c.length - min b c.length) (by omega)
          (c.drop (min b c.length)) rest f fuel2 hd hdne hflen hf2
        rw [hd] at hrec
        rw [hrec]
        rcases hR : runReader b fuel2 ⟨0, false⟩ rest with e | ⟨dd, kk, ff⟩ <;>
          simp [Except.map, ← List.append_assoc, List.take_append_drop]

end Mox

namespace Mox

lemma runReader_frame (b : Nat) (hb : 0 < b) (c rest : List Nat)
    (fuel fuel2 : Nat) (hne : c ≠ []) (hc2 : c.length < 2 ^ 31)
    (hf : (ctlwriterFrame c ++ rest).length < fuel)
    (hf2 : rest.length < fuel2) :
    runReader b fuel ⟨0, false⟩ (ctlwriterFrame c ++ rest) =
      (runReader b fuel2 ⟨0, false⟩ rest).map
        (fun r => (c ++ r.1, r.2.1 + 1, r.2.2)) := by
  have hcl : 0 < c.length := List.length_pos.mpr hne
  have hflen : (ctlwriterFrame c).length =
      (encNat c.length).length + 1 + c.length := by
    unfold ctlwriterFrame
    simp
    omega
  cases fuel with
  | zero => simp at hf
  | succ f =>
    rw [runReader_succ]
    rw [ctlreaderRead_frame b c rest hne hc2]
    simp only []
    by_cases hall : c.length - min b c.length = 0
    · have hrn : min b c.length = c.length := by omega
      simp only [hall, decide_eq_true_eq, eq_self_iff_true, decide_True]
      rw [hrn, List.take_length, List.drop_length]
      simp only [List.nil_append, Bool.false_eq_true, if_false, if_true]
      have hrec : runReader b f ⟨0, false⟩ rest =
          runReader b fuel2 ⟨0, false⟩ rest := by
        apply runReader_fuel_irrel b hb f ⟨0, false⟩ rest ?_ fuel2 hf2
        simp only [List.length_append] at hf
        omega
      rw [hrec]
      rcases hR : runReader b fuel2 ⟨0, false⟩ rest with e | ⟨dd, kk, ff⟩ <;>
        simp [Except.map, Nat.add_comm]
    · have hrn : min b c.length < c.length := by omega
      have hd : (c.drop (min b c.length)).length =
          c.length - min b c.length := by simp
      have hdne : c.drop (min b c.length) ≠ [] := by
        intro hx
        rw [hx] at hd
        simp at hd
        omega
      simp only [hall, decide_eq_true_eq, decide_False]
      simp only [Bool.false_eq_true, if_false]
      have hflen2 : (c.drop (min b c.length) ++ rest).length < f := by
        simp only [List.length_append, List.length_drop]
        rw [List.length_append, hflen] at hf
        omega
      have hrec := runReader_pending b hb (c.length - min b c.length)
        (c.drop (min b c.length)) rest f fuel2 hd hdne hflen2 hf2
      rw [hd] at hrec
      rw [hrec]
      rcases hR : runReader b fuel2 ⟨0, false⟩ rest with e | ⟨dd, kk, ff⟩ <;>
        simp [Except.map, ← List.append_assoc, List.take_append_drop]

lemma runReader_term (b : Nat) (fuel : Nat) (hf : 0 < fuel) :
    runReader b fuel ⟨0, false⟩ (encNat 0 ++ [10]) = .ok ([], 0, true) := by
  cases fuel with
  | zero => omega
  | succ f =>
    rw [runReader_succ, ctlreaderRead_term]
    simp

lemma runReader_ctlStream (b : Nat) (hb : 0 < b) :
    ∀ (chunks : List (List Nat)) (fuel : Nat), (∀ c ∈ chunks, c ≠ []) →
      (∀ c ∈ chunks, c.length < 2 ^ 31) →
      (ctlStream chunks).length < fuel →
      runReader b fuel ⟨0, false⟩ (ctlStream chunks) =
        .ok (chunks.flatten, chunks.length, true) := by
  intro chunks
  induction chunks with
  | nil =>
    intro fuel hne hb32 hf
    unfold ctlStream at hf ⊢
    simp only [List.map_nil, List.flatten_nil, List.nil_append] at hf ⊢
    exact runReader_term b fuel (by omega)
  | cons c cs ih =>
    intro fuel hne hb32 hf
    have hstream : ctlStream (c :: cs) = ctlwriterFrame c ++ ctlStream cs := by
      unfold ctlStream
      simp [List.append_assoc]
    rw [hstream] at hf ⊢
    rw [runReader_frame b hb c (ctlStream cs) fuel fuel
      (hne c (by simp)) (hb32 c (by simp)) hf ?rest]
    case rest =>
      rw [List.length_append] at hf
      omega
    rw [ih fuel (fun x hx => hne x (by simp [hx]))
      (fun x hx => hb32 x (by simp [hx])) ?lt]
    case lt =>
      rw [List.length_append] at hf
      omega
    simp [Except.map]

/-- C8: the control stream framing: the server greets with the line
`ctlv0`; each writer frame is a decimal count line followed by exactly
the data bytes; the reader writes `ok` exactly when a read leaves no
byte of the current frame pending; and driving the reader over a framed
stream of nonempty writes (each small enough for the reader's 32-bit
count-line parse, `strconv.ParseInt(line, 10, 32)`) terminated by the
count line `0` returns EOF having yielded exactly the concatenation of
the written bytes, with one `ok` acknowledgement per frame. -/
theorem claim_C8_ctl_framing :
    servectlGreeting = strBytes "ctlv0" ++ [10] ∧
    (∀ b st w data okE st2 w2, 0 < b →
      ctlreaderRead b st w = .ok (data, okE, st2, w2) →
      (okE = true ↔ st.eof = false ∧ st2.eof = false ∧
        st2.npending = 0 ∧ data ≠ [])) ∧
    (∀ (chunks : List (List Nat)) (b fuel : Nat), 0 < b →
      (∀ c ∈ chunks, c ≠ []) → (∀ c ∈ chunks, c.length < 2 ^ 31) →
      (ctlStream chunks).length < fuel →
      runReader b fuel ⟨0, false⟩ (ctlStream chunks) =
        .ok (chunks.flatten, chunks.length, true)) := by
  refine ⟨rfl, ?_, fun chunks b fuel hb => runReader_ctlStream b hb chunks fuel⟩
  intro b st w data okE st2 w2 hb h
  unfold ctlreaderRead at h
  by_cases he : st.eof = true
  · rw [if_pos he] at h
    simp at h
    simp_all
  · rw [if_neg he] at h
    simp only [] at h
    by_cases hnp : st.npending = 0
    · rw [if_pos hnp] at h
      cases hline : readLine w with
      | none => rw [hline] at h; simp at h
      | some p =>
        rw [hline] at h
        simp only [] at h
        cases hd : decNat p.1 with
        | none => rw [hd] at h; simp at h
        | some n =>
          rw [hd] at h
          simp only [] at h
          by_cases hz : n = 0
          · rw [if_pos hz] at h
            simp at h
            simp_all
          · rw [if_neg hz] at h
            by_cases hlen : p.2.length < min b n
            · rw [if_pos hlen] at h
              simp at h
            · rw [if_neg hlen] at h
              simp at h
              obtain ⟨h1, h2, h3, -⟩ := h
              rw [← h1, ← h2, ← h3]
              simp only [Bool.not_eq_true] at he
              simp [he, decide_eq_true_eq]
              intro _
              refine ⟨⟨by omega, hz⟩, ?_⟩
              intro hx
              rw [hx] at hlen
              simp at hlen
              omega
    · rw [if_neg hnp] at h
      simp only [] at h
      rw [if_neg hnp] at h
      by_cases hlen : w.length < min b st.npending
      · rw [if_pos hlen] at h
        simp at h
      · rw [if_neg hlen] at h
        simp at h
        obtain ⟨h1, h2, h3, -⟩ := h
        rw [← h1, ← h2, ← h3]
        simp only [Bool.not_eq_true] at he
        simp [he, decide_eq_true_eq]
        intro _
        refine ⟨⟨by omega, hnp⟩, ?_⟩
        intro hx
        rw [hx] at hlen
        simp at hlen
        omega

theorem claim_C8_witness :
    runReader 2 20 ⟨0, false⟩ (ctlStream [[1, 2, 3], [4]]) =
      .ok ([1, 2, 3, 4], 2, true) := by
  have h := claim_C8_ctl_framing.2.2 [[1, 2, 3], [4]] 2 20 (by decide)
    (by decide) (by decide) (by decide)
  simpa using h

end Mox

namespace Mox

/-- C9: `FetchPolicy` fails on any redirect (the redirect checker always
errors), fails on a body longer than 64 KiB instead of truncating, only
succeeds with the full untruncated body within the limit, and runs under
a 1-minute deadline. -/
theorem claim_C9_fetch_policy
    (parsePolicy : List Nat → Except String MtastsPolicy) :
    FetchPolicy parsePolicy .redirect =
      .error (.policyFetch "http get: redirect not allowed for MTA-STS policies") ∧
    (∀ status body, body.length > 64 * 1024 →
      ∃ e, FetchPolicy parsePolicy (.response status body) = .error e) ∧
    (∀ status body p buf,
      FetchPolicy parsePolicy (.response status body) = .ok (p, buf) →
      buf = body ∧ body.length ≤ 64 * 1024 ∧ parsePolicy body = .ok p) ∧
    fetchPolicyTimeoutSeconds = 60 := by
  refine ⟨rfl, ?_, ?_, rfl⟩
  · intro status body hlong
    unfold FetchPolicy
    simp only []
    by_cases h404 : status = 404
    · exact ⟨.noPolicy, by rw [if_pos h404]⟩
    · rw [if_neg h404]
      by_cases h200 : status = 200
      · rw [if_neg (by simp [h200])]
        unfold limitReaderReadAll
        rw [if_pos hlong]
        exact ⟨.policySyntax "reading policy: body too large", rfl⟩
      · rw [if_pos (by simpa using h200)]
        exact ⟨.policyFetch "http status while status 200 is required", rfl⟩
  · intro status body p buf h
    unfold FetchPolicy at h
    simp only [] at h
    by_cases h404 : status = 404
    · rw [if_pos h404] at h
      simp at h
    · rw [if_neg h404] at h
      by_cases h200 : status = 200
      · rw [if_neg (by simp [h200])] at h
        unfold limitReaderReadAll at h
        by_cases hlong : body.length > 64 * 1024
        · rw [if_pos hlong] at h
          simp at h
        · rw [if_neg hlong] at h
          simp only [] at h
          cases hp : parsePolicy body with
          | error e => rw [hp] at h; simp at h
          | ok q =>
            rw [hp] at h
            simp at h
            obtain ⟨h1, h2⟩ := h
            subst h1 h2
            exact ⟨rfl, by omega, rfl⟩
      · rw [if_pos (by simpa using h200)] at h
        simp at h

theorem claim_C9_witness :
    FetchPolicy (fun _ => .error "x") .redirect =
      .error (.policyFetch "http get: redirect not allowed for MTA-STS policies") :=
  (claim_C9_fetch_policy (fun _ => .error "x")).1

/-- C10: `Policy.Matches` holds exactly when a non-wildcard entry equals
the host or a wildcard entry's domain equals the part of the host name
after its first label; hence a wildcard matches exactly one extra label:
`*.example.com` matches `mail.example.com` but neither `example.com` nor
`foo.bar.example.com`. -/
theorem claim_C10_policy_matches (p : MtastsPolicy) (host : Domain) :
    (policyMatches p host = true ↔
      (∃ mx ∈ p.mx, mx.wildcard = false ∧ host = mx.domain) ∨
      (∃ mx ∈ p.mx, mx.wildcard = true ∧
        ∃ pre rest, splitFirstDot host.ascii.data = some (pre, rest) ∧
          rest = mx.domain.ascii.data)) ∧
    policyMatches ⟨[⟨true, ⟨"example.com", ""⟩⟩]⟩ ⟨"mail.example.com", ""⟩ = true ∧
    policyMatches ⟨[⟨true, ⟨"example.com", ""⟩⟩]⟩ ⟨"example.com", ""⟩ = false ∧
    policyMatches ⟨[⟨true, ⟨"example.com", ""⟩⟩]⟩ ⟨"foo.bar.example.com", ""⟩ = false := by
  refine ⟨?_, by decide, by decide, by decide⟩
  unfold policyMatches
  rw [List.any_eq_true]
  constructor
  · rintro ⟨mx, hmx, hf⟩
    cases hw : mx.wildcard with
    | false =>
      rw [hw] at hf
      simp at hf
      exact Or.inl ⟨mx, hmx, hw, hf⟩
    | true =>
      rw [hw] at hf
      simp only [if_true] at hf
      cases hsp : splitFirstDot host.ascii.data with
      | none => rw [hsp] at hf; simp at hf
      | some v =>
        rw [hsp] at hf
        simp at hf
        exact Or.inr ⟨mx, hmx, hw, v.1, v.2, rfl, hf⟩

  · rintro (⟨mx, hmx, hw, he⟩ | ⟨mx, hmx, hw, pre, rest, hsp, he⟩)
    · exact ⟨mx, hmx, by simp [hw, he]⟩
    · exact ⟨mx, hmx, by simp [hw, hsp, he]⟩

end Mox
